import Mathlib

/-!
Verification development for the social_contract repository.

Shallow embedding of the check-in recorder, streak/points calculator,
achievement evaluator and challenge-lifecycle logic of `src/app.py`,
together with the data model of `src/models.py`.

Conventions of the embedding:
* Python `int` is modelled as `Int`; Python `//` (floor division) is
  `Int.fdiv`; Python `max` is `max`.
* A calendar date is modelled as its day number (an `Int`, days since the
  Unix epoch); `civilToDays` converts a parsed year-month-day to that day
  number, so date subtraction and equality coincide with Python `date`
  arithmetic.  `yesterday = today - timedelta(days=1)` becomes `today - 1`.
* Database tables are lists of rows; `query.filter_by(...).first()` is
  `List.find?`, `.count()` is `List.length` after `List.filter`, and an ORM
  row mutation followed by the single `db.session.commit()` is one update
  of the whole database value.
* The external image host (Cloudinary) is opaque: the outcome of an upload
  is carried on the request as an oracle field `uploadResult`.
-/

namespace SocialContract

/-! ## Data model (src/models.py) -/

/-- Row of the `users` table (the fields the embedded handlers read). -/
structure UserRow where
  id : Nat
  display_name : String
  total_points : Int
deriving DecidableEq

/-- Row of the `challenges` table. -/
structure Challenge where
  id : Nat
  name : String
  creator_id : Nat
  points_per_checkin : Int
  streak_bonus : Int
  verification_type : Option String
  end_date : Option Int
  is_completed : Bool
  winner_id : Option Nat
deriving DecidableEq

/-- Row of the `challenge_members` table (unique per (challenge_id, user_id)). -/
structure ChallengeMember where
  challenge_id : Nat
  user_id : Nat
  points : Int
  current_streak : Int
  best_streak : Int
  streak_freezes : Int
  freezes_used : Int
deriving DecidableEq

/-- Row of the `checkins` table (unique per (challenge_id, user_id, checkin_date)). -/
structure Checkin where
  challenge_id : Nat
  user_id : Nat
  checkin_date : Int
  note : String
  photo_url : Option String
deriving DecidableEq

/-- Row of the `achievements` table. -/
structure Achievement where
  id : Nat
  name : String
  description : String
  condition_type : String
  condition_value : Int
deriving DecidableEq

/-- Row of the `user_achievements` table (unique per (user_id, achievement_id)). -/
structure UserAchievement where
  user_id : Nat
  achievement_id : Nat
deriving DecidableEq

/-- Row of the `notifications` table. -/
structure Notification where
  user_id : Nat
  type : String
  title : String
  message : String
  link : Option String
deriving DecidableEq

/-- The relational state touched by the embedded handlers. -/
structure DB where
  users : List UserRow
  challenges : List Challenge
  members : List ChallengeMember
  checkins : List Checkin
  achievements : List Achievement
  userAchievements : List UserAchievement
  notifications : List Notification
deriving DecidableEq

/-- Lookup `ChallengeMember.query.filter_by(challenge_id=..., user_id=...).first()`. -/
def findMembership (db : DB) (cid uid : Nat) : Option ChallengeMember :=
  db.members.find? (fun m => m.challenge_id == cid && m.user_id == uid)

/-- Lookup `Challenge.query.get(challenge_id)`. -/
def getChallenge (db : DB) (cid : Nat) : Option Challenge :=
  db.challenges.find? (fun c => c.id == cid)

/-- Lookup `User.query.get(user_id)`. -/
def getUser (db : DB) (uid : Nat) : Option UserRow :=
  db.users.find? (fun u => u.id == uid)

/-- Test `Checkin.query.filter_by(challenge_id=..., user_id=..., checkin_date=d).first() is not None`. -/
def hasCheckin (db : DB) (cid uid : Nat) (d : Int) : Bool :=
  db.checkins.any (fun c => c.challenge_id == cid && c.user_id == uid && c.checkin_date == d)

/-! ## Client date resolution (src/app.py lines 1063-1076)

The check-in handler accepts an optional `client_date` form field (already
`.strip()`-ed in the source; the embedding takes the stripped string).  It
is used only when it matches the regex `^\d{4}-\d{2}-\d{2}$`, parses as a
calendar date (`datetime.strptime(..., '%Y-%m-%d')`) and lies within one
day of the server-computed "today" in the resolved timezone. -/

/-- Parsed year-month-day as produced by `datetime.strptime(s, '%Y-%m-%d')`. -/
structure Ymd where
  year : Nat
  month : Nat
  day : Nat
deriving DecidableEq

/-- Python `re.match(r'^\d{4}-\d{2}-\d{2}$', s)`: four digits, dash, two
digits, dash, two digits, and nothing else (digits taken as ASCII). -/
def clientDatePattern (s : String) : Bool :=
  match s.data with
  | [y1, y2, y3, y4, h1, m1, m2, h2, d1, d2] =>
    y1.isDigit && y2.isDigit && y3.isDigit && y4.isDigit && h1 == '-' &&
    m1.isDigit && m2.isDigit && h2 == '-' && d1.isDigit && d2.isDigit
  | _ => false

/-- Gregorian leap-year rule used by Python's `calendar`/`datetime`. -/
def isLeapYear (y : Nat) : Bool :=
  y % 4 == 0 && (y % 100 != 0 || y % 400 == 0)

/-- Number of days in a month, as enforced by `datetime.date`. -/
def daysInMonth (y m : Nat) : Nat :=
  if m == 2 then (if isLeapYear y then 29 else 28)
  else if m == 4 || m == 6 || m == 9 || m == 11 then 30
  else 31

/-- Numeric value of an ASCII digit character. -/
def digitVal (c : Char) : Nat :=
  c.toNat - 48

/-- Python `datetime.strptime(s, '%Y-%m-%d').date()` on a string that has
the `YYYY-MM-DD` shape: returns the parsed date, or `none` when the parse
raises `ValueError` (month/day out of range, or year below `MINYEAR = 1`). -/
def strptimeYmd (s : String) : Option Ymd :=
  match s.data with
  | [y1, y2, y3, y4, h1, m1, m2, h2, d1, d2] =>
    if y1.isDigit && y2.isDigit && y3.isDigit && y4.isDigit && h1 == '-' &&
       m1.isDigit && m2.isDigit && h2 == '-' && d1.isDigit && d2.isDigit then
      let y := ((digitVal y1 * 10 + digitVal y2) * 10 + digitVal y3) * 10 + digitVal y4
      let m := digitVal m1 * 10 + digitVal m2
      let d := digitVal d1 * 10 + digitVal d2
      if 1 ≤ y ∧ 1 ≤ m ∧ m ≤ 12 ∧ 1 ≤ d ∧ d ≤ daysInMonth y m then
        some ⟨y, m, d⟩
      else none
    else none
  | _ => none

/-- Day number of a Gregorian date (days since 1970-01-01), the standard
days-from-civil conversion; models Python `date` subtraction exactly. -/
def civilToDays (dt : Ymd) : Int :=
  let y : Int := if dt.month ≤ 2 then (dt.year : Int) - 1 else (dt.year : Int)
  let era : Int := Int.fdiv y 400
  let yoe : Int := y - era * 400
  let mp : Int := if dt.month > 2 then (dt.month : Int) - 3 else (dt.month : Int) + 9
  let doy : Int := Int.fdiv (153 * mp + 2) 5 + (dt.day : Int) - 1
  let doe : Int := yoe * 365 + Int.fdiv yoe 4 - Int.fdiv yoe 100 + doy
  era * 146097 + doe - 719468

/-- Resolution of the check-in date (src/app.py lines 1066-1076): use the
client-supplied date only when it matches the pattern, parses, and is at
most one day away from the server-computed today; otherwise fall back to
the server-computed today. -/
def resolveToday (client_date : String) (user_today : Int) : Int :=
  if clientDatePattern client_date then
    match strptimeYmd client_date with
    | some dt =>
      let parsed := civilToDays dt
      if (user_today - parsed).natAbs ≤ 1 then parsed else user_today
    | none => user_today
  else user_today

/-! ## Image validation (src/app.py lines 132-160) -/

/-- Allowed photo filename extensions (`ALLOWED_EXTENSIONS` in src/app.py). -/
def ALLOWED_EXTENSIONS : List (List Char) :=
  ["png".data, "jpg".data, "jpeg".data, "gif".data, "webp".data]

/-- Suffix after the last dot of a filename, or `none` when the name has no
dot; models `filename.rsplit('.', 1)[1]` guarded by `'.' in filename`. -/
def extAfterDot : List Char → Option (List Char)
  | [] => none
  | c :: rest =>
    match extAfterDot rest with
    | some e => some e
    | none => if c == '.' then some rest else none

/-- Python `allowed_file` (src/app.py line 145): the filename contains a dot
and its lower-cased extension is in `ALLOWED_EXTENSIONS`. -/
def allowed_file (filename : String) : Bool :=
  match extAfterDot filename.data with
  | some e => ALLOWED_EXTENSIONS.contains (e.map Char.toLower)
  | none => false

/-- PNG signature bytes. -/
def pngSig : List Nat := [0x89, 0x50, 0x4E, 0x47, 0x0D, 0x0A, 0x1A, 0x0A]

/-- JPEG signature bytes. -/
def jpgSig : List Nat := [0xFF, 0xD8, 0xFF]

/-- GIF87a signature bytes. -/
def gif87Sig : List Nat := [0x47, 0x49, 0x46, 0x38, 0x37, 0x61]

/-- GIF89a signature bytes. -/
def gif89Sig : List Nat := [0x47, 0x49, 0x46, 0x38, 0x39, 0x61]

/-- RIFF container signature bytes. -/
def riffSig : List Nat := [0x52, 0x49, 0x46, 0x46]

/-- WEBP tag bytes expected at offset 8 of a RIFF container. -/
def webpTag : List Nat := [0x57, 0x45, 0x42, 0x50]

/-- Python `validate_image_file` (src/app.py line 149): inspect the first 12
bytes (`header`) against `IMAGE_SIGNATURES` in insertion order; for the RIFF
signature additionally require bytes 8..11 to read `WEBP`. -/
def validate_image_file (header : List Nat) : Bool :=
  if header.isEmpty then false
  else if pngSig.isPrefixOf header then true
  else if jpgSig.isPrefixOf header then true
  else if gif87Sig.isPrefixOf header then true
  else if gif89Sig.isPrefixOf header then true
  else if riffSig.isPrefixOf header then decide ((header.drop 8).take 4 = webpTag)
  else false

/-! ## Streak & points calculator (src/app.py lines 1137-1157) -/

/-- Output of the streak/points/freeze computation performed on check-in. -/
structure StreakResult where
  new_streak : Int
  points_earned : Int
  freeze_used : Bool
  freeze_earned : Int
deriving DecidableEq

/-- The streak, points and freeze arithmetic of the check-in handler
(src/app.py lines 1137-1157), as a pure function of the membership's prior
state, the challenge's point rules and whether the user checked in on the
immediately preceding day. -/
def streakCalc (current_streak streak_freezes points_per_checkin streak_bonus : Int)
    (checked_yesterday : Bool) : StreakResult :=
  let ns_fu : Int × Bool :=
    if checked_yesterday then (current_streak + 1, false)
    else if current_streak > 0 ∧ streak_freezes > 0 then (current_streak + 1, true)
    else (1, false)
  let new_streak := ns_fu.1
  let freeze_used := ns_fu.2
  let points_earned :=
    if new_streak > 1 then points_per_checkin + streak_bonus * (new_streak - 1)
    else points_per_checkin
  let freeze_earned :=
    if new_streak ≥ 7 then Int.fdiv new_streak 7 - Int.fdiv current_streak 7
    else 0
  ⟨new_streak, points_earned, freeze_used, freeze_earned⟩

/-- Application of the calculator's output to the membership row
(src/app.py lines 1170-1175). -/
def applyCheckinToMember (m : ChallengeMember) (r : StreakResult) : ChallengeMember :=
  { m with
    points := m.points + r.points_earned
    current_streak := r.new_streak
    best_streak := max m.best_streak r.new_streak
    streak_freezes := max 0 (m.streak_freezes + r.freeze_earned - (if r.freeze_used then 1 else 0))
    freezes_used := m.freezes_used + (if r.freeze_used then 1 else 0) }

/-! ## Check-in recorder (src/app.py lines 1053-1204) -/

/-- An uploaded photo as the handler sees it: the (Werkzeug) filename, the
first 12 bytes of content, and — since the image host is external — the
outcome `upload_checkin_photo` would return for it (a URL, or `none` on
upload failure). -/
structure PhotoFile where
  filename : String
  header : List Nat
  uploadResult : Option String
deriving DecidableEq

/-- A check-in POST request: the stripped `client_date` form field, the
server-computed today in the resolved timezone (`get_user_today(user_tz)`),
the stripped note, and the optional `photo` file field. -/
structure CheckinRequest where
  client_date : String
  user_today : Int
  note : String
  photo : Option PhotoFile
deriving DecidableEq

/-- The typed failures of the check-in handler, in source order.
`serverError` models the uncaught `AttributeError` (HTTP 500) raised when
the membership exists but the challenge row does not; foreign-key integrity
makes that branch unreachable. -/
inductive CheckinError where
  | notMember
  | serverError
  | challengeEnded
  | alreadyCheckedIn
  | invalidImage
  | photoRequired
deriving DecidableEq

/-- Outcome of the check-in handler: a typed error, or the success payload
echoed in the JSON response. -/
inductive CheckinResult where
  | err (e : CheckinError)
  | ok (points_earned new_streak : Int) (freeze_used : Bool) (freeze_earned : Int)
deriving DecidableEq

/-- Whether a handler outcome is a success. -/
def CheckinResult.isOk : CheckinResult → Bool
  | .err _ => false
  | .ok _ _ _ _ => true

/-- Python `challenge.verification_type or 'none'` (src/app.py line 1110). -/
def effectiveVt (c : Challenge) : String :=
  match c.verification_type with
  | none => "none"
  | some s => if s = "" then "none" else s

/-- The photo-handling block of the handler (src/app.py lines 1108-1124):
ignore an absent, unnamed, or disallowed-extension file; reject a named,
allowed file whose magic bytes are not an image; otherwise upload when
Cloudinary is configured, tolerating upload failure (the URL stays `none`).
`cfg` is the `cloudinary_configured` flag. -/
def photoStep (cfg : Bool) (photo : Option PhotoFile) : Except Unit (Option String) :=
  match photo with
  | none => Except.ok none
  | some p =>
    if p.filename ≠ "" ∧ allowed_file p.filename then
      if validate_image_file p.header then
        Except.ok (if cfg then p.uploadResult else none)
      else Except.error ()
    else Except.ok none

/-- The check-in handler `checkin` (src/app.py lines 1053-1204): resolves
the date, checks membership, challenge completion, the duplicate-day guard
and the photo requirement in source order, then computes the streak result
and commits the new `Checkin` row together with the membership and user
updates in one transaction.  Every error branch returns the database
unchanged (the handler commits nothing before `db.session.commit()`). -/
def checkin (cfg : Bool) (db : DB) (cid uid : Nat) (req : CheckinRequest) :
    DB × CheckinResult :=
  let today := resolveToday req.client_date req.user_today
  let yesterday := today - 1
  match findMembership db cid uid with
  | none => (db, .err .notMember)
  | some membership =>
    match getChallenge db cid with
    | none => (db, .err .serverError)
    | some challenge =>
      if challenge.is_completed then (db, .err .challengeEnded)
      else if hasCheckin db cid uid today then (db, .err .alreadyCheckedIn)
      else
        match photoStep cfg req.photo with
        | Except.error _ => (db, .err .invalidImage)
        | Except.ok photo_url =>
          if effectiveVt challenge == "photo_required" && photo_url.isNone then
            (db, .err .photoRequired)
          else
            let checked_yesterday := hasCheckin db cid uid yesterday
            let r := streakCalc membership.current_streak membership.streak_freezes
              challenge.points_per_checkin challenge.streak_bonus checked_yesterday
            let db' : DB :=
              { db with
                checkins := db.checkins ++ [⟨cid, uid, today, req.note, photo_url⟩]
                members := db.members.map (fun m =>
                  if m.challenge_id == cid && m.user_id == uid then
                    applyCheckinToMember m r
                  else m)
                users := db.users.map (fun u =>
                  if u.id == uid then { u with total_points := u.total_points + r.points_earned }
                  else u) }
            (db', .ok r.points_earned r.new_streak r.freeze_used r.freeze_earned)

/-! ## Achievement evaluator (src/app.py lines 270-315) -/

/-- The six aggregate statistics computed by `check_achievements`
(src/app.py lines 284-298). -/
structure UserStats where
  total_checkins : Int
  best_streak : Int
  total_points : Int
  challenges_joined : Int
  challenges_created : Int
  photo_checkins : Int
deriving DecidableEq

/-- SQL `MAX` over a column: `none` on an empty set. -/
def sqlMax : List Int → Option Int
  | [] => none
  | x :: xs =>
    match sqlMax xs with
    | none => some x
    | some m => some (max x m)

/-- The statistics of a user, from the same queries as the source:
check-in count, `MAX(best_streak)` with `or 0`, `SUM(points)` with `or 0`,
membership count, created-challenge count, and count of check-ins with a
photo. -/
def computeStats (db : DB) (uid : Nat) : UserStats :=
  { total_checkins := ((db.checkins.filter (fun c => c.user_id == uid)).length : Int)
    best_streak :=
      (sqlMax ((db.members.filter (fun m => m.user_id == uid)).map (fun m => m.best_streak))).getD 0
    total_points := ((db.members.filter (fun m => m.user_id == uid)).map (fun m => m.points)).sum
    challenges_joined := ((db.members.filter (fun m => m.user_id == uid)).length : Int)
    challenges_created := ((db.challenges.filter (fun c => c.creator_id == uid)).length : Int)
    photo_checkins :=
      ((db.checkins.filter (fun c => c.user_id == uid && c.photo_url.isSome)).length : Int) }

/-- The `stat_map` lookup (src/app.py lines 291-298): the statistic matching
a condition type, or `none` for an unknown condition type. -/
def statFor (s : UserStats) (ct : String) : Option Int :=
  if ct = "total_checkins" then some s.total_checkins
  else if ct = "streak" then some s.best_streak
  else if ct = "total_points" then some s.total_points
  else if ct = "challenges_joined" then some s.challenges_joined
  else if ct = "challenges_created" then some s.challenges_created
  else if ct = "photo_checkins" then some s.photo_checkins
  else none

/-- The award test of the evaluator loop (src/app.py lines 300-302): the
condition type is known and the matching statistic meets or exceeds the
threshold. -/
def achievementMet (s : UserStats) (a : Achievement) : Bool :=
  match statFor s a.condition_type with
  | some v => decide (v ≥ a.condition_value)
  | none => false

/-- The notification emitted for a new award (src/app.py lines 308-313). -/
def achievementNotification (uid : Nat) (a : Achievement) : Notification :=
  { user_id := uid
    type := "achievement_earned"
    title := "Achievement Unlocked"
    message := "You earned \"" ++ a.name ++ "\" - " ++ a.description
    link := some "/achievements" }

/-- The `earned_ids` list of `check_achievements` (src/app.py line 277). -/
def earnedIds (db : DB) (uid : Nat) : List Nat :=
  (db.userAchievements.filter (fun ua => ua.user_id == uid)).map
    (fun ua => ua.achievement_id)

/-- The `unearned` query of `check_achievements` (src/app.py line 278):
achievements whose id is not among the user's earned ids. -/
def unearnedOf (db : DB) (uid : Nat) : List Achievement :=
  db.achievements.filter (fun a => !((earnedIds db uid).contains a.id))

/-- The achievements awarded by one evaluator run: the unearned ones whose
matching statistic meets the threshold (the body of the loop at
src/app.py lines 300-307). -/
def newAwardsOf (db : DB) (uid : Nat) : List Achievement :=
  (unearnedOf db uid).filter (fun a => achievementMet (computeStats db uid) a)

/-- `check_achievements` (src/app.py lines 270-315): for an existing user,
compare every not-yet-earned achievement's threshold against the matching
statistic and record each satisfied one as earned, emitting one
notification per new award. -/
def check_achievements (db : DB) (uid : Nat) : DB :=
  match getUser db uid with
  | none => db
  | some _ =>
    if (unearnedOf db uid).isEmpty then db
    else
      { db with
        userAchievements := db.userAchievements ++
          (newAwardsOf db uid).map (fun a => ⟨uid, a.id⟩)
        notifications := db.notifications ++
          (newAwardsOf db uid).map (fun a => achievementNotification uid a) }

/-! ## Challenge lifecycle (src/app.py lines 318-348) -/

/-- Winner selection: `filter_by(challenge_id=...).order_by(points.desc()).first()`
over the challenge's members, ties resolved by list (insertion) order. -/
def selectWinner : List ChallengeMember → Option ChallengeMember
  | [] => none
  | m :: ms =>
    match selectWinner ms with
    | none => some m
    | some w => if w.points > m.points then some w else some m

/-- Display name of a user id (`winner_member.user.display_name`); total
lookup with an empty-string default in the foreign-key-violating case. -/
def displayNameOf (db : DB) (uid : Nat) : String :=
  match getUser db uid with
  | some u => u.display_name
  | none => ""

/-- The completion notification sent to one member (src/app.py lines 340-346). -/
def completionNotification (db : DB) (toUid : Nat) (c : Challenge)
    (winner : Option ChallengeMember) : Notification :=
  let winner_name := match winner with
    | some w => displayNameOf db w.user_id
    | none => "No one"
  let winner_points : Int := match winner with
    | some w => w.points
    | none => 0
  { user_id := toUid
    type := "challenge_completed"
    title := "Challenge Ended"
    message := "\"" ++ c.name ++ "\" has ended. " ++ winner_name ++ " won with " ++
      toString winner_points ++ " points."
    link := some ("/challenge/" ++ toString c.id) }

/-- The body of the lifecycle loop for one membership's challenge
(src/app.py lines 325-346): when the challenge exists, has an end date
strictly before today and is not yet completed, select the winner, mark the
challenge completed and notify every member; otherwise leave the state
untouched. -/
def lifecycleStep (today : Int) (db : DB) (cid : Nat) : DB :=
  match getChallenge db cid with
  | none => db
  | some c =>
    match c.end_date with
    | none => db
    | some e =>
      if e < today ∧ c.is_completed = false then
        let cmembers := db.members.filter (fun m => m.challenge_id == cid)
        let winner := selectWinner cmembers
        let c' := { c with is_completed := true, winner_id := winner.map (fun w => w.user_id) }
        { db with
          challenges := db.challenges.map (fun x => if x.id == cid then c' else x)
          notifications := db.notifications ++
            cmembers.map (fun m => completionNotification db m.user_id c winner) }
      else db

/-- The effect of the lifecycle condition on one challenge row: completed
with the winner recorded when the end date has passed and it was not yet
completed, untouched otherwise. -/
def completeDue (today : Int) (members : List ChallengeMember) (cid : Nat)
    (c : Challenge) : Challenge :=
  match c.end_date with
  | none => c
  | some e =>
    if e < today ∧ c.is_completed = false then
      { c with
        is_completed := true
        winner_id := (selectWinner (members.filter (fun m => m.challenge_id == cid))).map
          (fun w => w.user_id) }
    else c

/-- `check_completed_challenges` (src/app.py lines 318-348): run the
lifecycle step over the challenge of each of the user's memberships. -/
def check_completed_challenges (db : DB) (uid : Nat) (today : Int) : DB :=
  (((db.members.filter (fun m => m.user_id == uid)).map (fun m => m.challenge_id))).foldl
    (lifecycleStep today) db

/-! ## Concrete example states (used by the witness theorems) -/

/-- Example user row. -/
def exampleUser : UserRow := ⟨1, "A", 0⟩

/-- Example challenge with default point rules and no photo requirement. -/
def exampleChallenge : Challenge := ⟨1, "Example", 1, 10, 5, none, none, false, none⟩

/-- Example membership with a fresh state. -/
def exampleMember : ChallengeMember := ⟨1, 1, 0, 0, 0, 0, 0⟩

/-- Example database with no check-ins yet. -/
def exampleFreshDB : DB :=
  ⟨[exampleUser], [exampleChallenge], [exampleMember], [], [], [], []⟩

/-- Example database that already holds a check-in for day 10. -/
def exampleDupDB : DB :=
  ⟨[exampleUser], [exampleChallenge], [exampleMember], [⟨1, 1, 10, "", none⟩], [], [], []⟩

/-- Example request with no client date (server today = day 10) and no photo. -/
def exampleReq : CheckinRequest := ⟨"", 10, "", none⟩

/-- Example achievement: first check-in at threshold 1. -/
def exampleAchievement : Achievement :=
  ⟨1, "First Check-in", "Complete your first daily check-in", "total_checkins", 1⟩

/-- Example database with one check-in and one unearned achievement. -/
def exampleAchDB : DB :=
  ⟨[exampleUser], [exampleChallenge], [exampleMember], [⟨1, 1, 10, "", none⟩],
    [exampleAchievement], [], []⟩

/-- Example challenge whose end date (day 9) is in the past (today = 10). -/
def exampleEndedChallenge : Challenge := ⟨1, "Ended", 1, 10, 5, none, some 9, false, none⟩

/-- Example database with two members of the ended challenge: member 2
leads with 7 points. -/
def exampleEndedDB : DB :=
  ⟨[exampleUser, ⟨2, "B", 0⟩], [exampleEndedChallenge],
    [⟨1, 1, 3, 0, 0, 0, 0⟩, ⟨1, 2, 7, 0, 0, 0, 0⟩], [], [], [], []⟩

/-- Example photo: allowed extension, valid PNG signature, upload would
return a URL. -/
def examplePhoto : PhotoFile :=
  ⟨"proof.png", [0x89, 0x50, 0x4E, 0x47, 0x0D, 0x0A, 0x1A, 0x0A, 0, 0, 0, 0],
    some "https://img.example/x.png"⟩

/-- Example request carrying the example photo. -/
def examplePhotoReq : CheckinRequest := ⟨"", 10, "", some examplePhoto⟩

/-! ## Helper lemmas -/

theorem fdiv7_mono {a b : Int} (h : a ≤ b) : Int.fdiv a 7 ≤ Int.fdiv b 7 := by
  rw [Int.fdiv_eq_ediv _ (by omega), Int.fdiv_eq_ediv _ (by omega)]
  omega

theorem fdiv7_small {a : Int} (h0 : 0 ≤ a) (h7 : a < 7) : Int.fdiv a 7 = 0 := by
  rw [Int.fdiv_eq_ediv _ (by omega)]
  omega

/-- Case description of the streak/freeze decision of `streakCalc`. -/
theorem streakCalc_new_streak_cases (cs fr base bonus : Int) (cy : Bool) :
    (streakCalc cs fr base bonus cy).new_streak = cs + 1 ∨
    ((streakCalc cs fr base bonus cy).new_streak = 1 ∧
      (streakCalc cs fr base bonus cy).freeze_used = false ∧
      (streakCalc cs fr base bonus cy).freeze_earned = 0) := by
  cases cy with
  | true => left; simp [streakCalc]
  | false =>
    by_cases hc : cs > 0 ∧ fr > 0
    · left; simp [streakCalc, hc]
    · right
      refine ⟨by simp [streakCalc, hc], by simp [streakCalc, hc], ?_⟩
      simp [streakCalc, hc]

/-- Closed form of the freeze-award field of `streakCalc`. -/
theorem streakCalc_freeze_earned_eq (cs fr base bonus : Int) (cy : Bool) :
    (streakCalc cs fr base bonus cy).freeze_earned =
      if (streakCalc cs fr base bonus cy).new_streak ≥ 7 then
        Int.fdiv (streakCalc cs fr base bonus cy).new_streak 7 - Int.fdiv cs 7
      else 0 := by
  cases cy with
  | true => simp [streakCalc]
  | false => by_cases hc : cs > 0 ∧ fr > 0 <;> simp [streakCalc, hc]

/-- The freeze award is nonnegative. -/
theorem streakCalc_freeze_earned_nonneg (cs fr base bonus : Int) (cy : Bool) :
    0 ≤ (streakCalc cs fr base bonus cy).freeze_earned := by
  rcases streakCalc_new_streak_cases cs fr base bonus cy with h | ⟨_, _, h3⟩
  · have hmono := fdiv7_mono (show cs ≤ cs + 1 by omega)
    have hfe := streakCalc_freeze_earned_eq cs fr base bonus cy
    rw [h] at hfe
    rw [hfe]
    split <;> omega
  · omega

/-- The freeze flag is set only when a freeze was available. -/
theorem streakCalc_freeze_used_pos (cs fr base bonus : Int) (cy : Bool)
    (h : (streakCalc cs fr base bonus cy).freeze_used = true) : 0 < cs ∧ 0 < fr := by
  cases cy with
  | true => simp [streakCalc] at h
  | false =>
    by_cases hc : cs > 0 ∧ fr > 0
    · exact hc
    · simp [streakCalc, hc] at h

/-! ## Claim theorems -/

/-- C1: for every check-in, the new streak is computed from the membership's
prior state as: if the user checked in on the immediately preceding day,
new streak = old streak + 1 and no freeze is consumed; otherwise, if old
streak > 0 and available freezes > 0, new streak = old streak + 1 and the
freeze-used flag is set; otherwise new streak = 1 with no freeze consumed. -/
theorem checkin_streak_rule (cs fr base bonus : Int) (cy : Bool) :
    (cy = true →
      (streakCalc cs fr base bonus cy).new_streak = cs + 1 ∧
      (streakCalc cs fr base bonus cy).freeze_used = false)
  ∧ (cy = false → 0 < cs → 0 < fr →
      (streakCalc cs fr base bonus cy).new_streak = cs + 1 ∧
      (streakCalc cs fr base bonus cy).freeze_used = true)
  ∧ (cy = false → (cs ≤ 0 ∨ fr ≤ 0) →
      (streakCalc cs fr base bonus cy).new_streak = 1 ∧
      (streakCalc cs fr base bonus cy).freeze_used = false) := by
  refine ⟨fun h => ?_, fun h h1 h2 => ?_, fun h hor => ?_⟩
  · subst h; simp [streakCalc]
  · subst h; simp [streakCalc, if_pos (And.intro h1 h2)]
  · subst h
    have hc : ¬(cs > 0 ∧ fr > 0) := by omega
    simp [streakCalc, hc]

/-- Witness for C1 at the spec's concrete example: streak 0, no check-in
yesterday, 0 freezes gives new streak 1 with no freeze consumed. -/
theorem checkin_streak_rule_witness :
    (streakCalc 0 0 10 5 false).new_streak = 1 ∧
    (streakCalc 0 0 10 5 false).freeze_used = false :=
  (checkin_streak_rule 0 0 10 5 false).2.2 rfl (Or.inl (by decide))

/-- C2 counterexample: on a streak reset (old streak 7, no freezes, no
check-in yesterday) the code awards 0 freezes, while the claimed formula
floor(new/7) - floor(old/7) evaluates to -1. -/
theorem checkin_freeze_award_counterexample :
    ¬ ((streakCalc 7 0 10 5 false).freeze_earned =
        Int.fdiv (streakCalc 7 0 10 5 false).new_streak 7 - Int.fdiv 7 7) := by
  decide

/-- C2 (amended): the freezes awarded equal floor(new_streak/7) -
floor(old_streak/7) whenever the streak incremented (new = old + 1); on a
streak reset (new = 1) the award is 0, which differs from the formula when
the old streak was at least 7.  The specific example holds as stated: a
user with streak 6, 1 freeze, who did not check in yesterday gets new
streak 7, one freeze consumed, and exactly 1 freeze earned. -/
theorem checkin_freeze_award (cs fr base bonus : Int) (cy : Bool) (h : 0 ≤ cs) :
    ((streakCalc cs fr base bonus cy).new_streak = cs + 1 →
      (streakCalc cs fr base bonus cy).freeze_earned =
        Int.fdiv (cs + 1) 7 - Int.fdiv cs 7)
  ∧ ((streakCalc cs fr base bonus cy).new_streak = 1 →
      (streakCalc cs fr base bonus cy).freeze_earned = 0)
  ∧ streakCalc 6 1 base bonus false =
      ⟨7, base + bonus * 6, true, 1⟩ := by
  refine ⟨fun hinc => ?_, fun hone => ?_, ?_⟩
  · have hfe := streakCalc_freeze_earned_eq cs fr base bonus cy
    rw [hinc] at hfe
    by_cases h7 : cs + 1 ≥ 7
    · rw [hfe, if_pos h7]
    · rw [hfe, if_neg h7, fdiv7_small h (by omega), fdiv7_small (by omega) (by omega)]
      omega
  · have hfe := streakCalc_freeze_earned_eq cs fr base bonus cy
    rw [hone] at hfe
    rw [hfe, if_neg (by omega)]
  · have hc : (6 : Int) > 0 ∧ (1 : Int) > 0 := by omega
    simp only [streakCalc, Bool.false_eq_true, if_false, if_pos hc]
    refine congrArg₂ _ ?_ rfl
    norm_num

/-- Witness for C2 (amended) at streak 6 with 1 freeze. -/
theorem checkin_freeze_award_witness :
    streakCalc 6 1 10 5 false = ⟨7, 10 + 5 * 6, true, 1⟩ :=
  (checkin_freeze_award 6 1 10 5 false (by decide)).2.2

/-- C3: the points earned equal the challenge's per-check-in base value
plus the per-streak-day bonus times (new_streak - 1) when the computed new
streak exceeds 1, and exactly the base value otherwise. -/
theorem checkin_points_rule (cs fr base bonus : Int) (cy : Bool) :
    (streakCalc cs fr base bonus cy).points_earned =
      if (streakCalc cs fr base bonus cy).new_streak > 1 then
        base + bonus * ((streakCalc cs fr base bonus cy).new_streak - 1)
      else base := by
  cases cy with
  | true => simp [streakCalc]
  | false => by_cases hc : cs > 0 ∧ fr > 0 <;> simp [streakCalc, hc]

/-- C8: starting from a membership with a nonnegative freeze balance, a
check-in consumes a freeze only when the balance is strictly positive, the
stored balance is exactly old balance + freezes earned - freezes consumed,
and it never goes below zero. -/
theorem checkin_freezes_nonneg (m : ChallengeMember) (base bonus : Int) (cy : Bool)
    (h : 0 ≤ m.streak_freezes) :
    ((streakCalc m.current_streak m.streak_freezes base bonus cy).freeze_used = true →
      0 < m.streak_freezes)
  ∧ (applyCheckinToMember m
        (streakCalc m.current_streak m.streak_freezes base bonus cy)).streak_freezes
      = m.streak_freezes
        + (streakCalc m.current_streak m.streak_freezes base bonus cy).freeze_earned
        - (if (streakCalc m.current_streak m.streak_freezes base bonus cy).freeze_used
            then 1 else 0)
  ∧ 0 ≤ (applyCheckinToMember m
        (streakCalc m.current_streak m.streak_freezes base bonus cy)).streak_freezes := by
  have hnn := streakCalc_freeze_earned_nonneg m.current_streak m.streak_freezes base bonus cy
  have hpos := streakCalc_freeze_used_pos m.current_streak m.streak_freezes base bonus cy
  refine ⟨fun hu => (hpos hu).2, ?_, ?_⟩
  · simp only [applyCheckinToMember]
    cases hu : (streakCalc m.current_streak m.streak_freezes base bonus cy).freeze_used with
    | true => have := (hpos hu).2; simp only [if_pos rfl]; omega
    | false => simp only [Bool.false_eq_true, if_false]; omega
  · simp only [applyCheckinToMember]
    omega

/-- Witness for C8 at a concrete membership with 2 freezes and streak 3. -/
theorem checkin_freezes_nonneg_witness :
    ((streakCalc (3 : Int) 2 10 5 false).freeze_used = true → (0 : Int) < 2)
  ∧ (applyCheckinToMember ⟨1, 1, 0, 3, 3, 2, 0⟩ (streakCalc 3 2 10 5 false)).streak_freezes
      = 2 + (streakCalc (3 : Int) 2 10 5 false).freeze_earned
        - (if (streakCalc (3 : Int) 2 10 5 false).freeze_used then 1 else 0)
  ∧ 0 ≤ (applyCheckinToMember ⟨1, 1, 0, 3, 3, 2, 0⟩ (streakCalc 3 2 10 5 false)).streak_freezes :=
  checkin_freezes_nonneg ⟨1, 1, 0, 3, 3, 2, 0⟩ 10 5 false (by decide)

/-- C9: the resolved check-in date equals the client-supplied date exactly
when the `client_date` field matches the `YYYY-MM-DD` pattern, parses as a
calendar date, and differs from the server-computed today by at most one
day; in every other case the server-computed today is used, so the resolved
date never differs from the server's today by more than one day. -/
theorem checkin_resolved_date (s : String) (t : Int) :
    (∀ dt, clientDatePattern s = true → strptimeYmd s = some dt →
      resolveToday s t =
        if (t - civilToDays dt).natAbs ≤ 1 then civilToDays dt else t)
  ∧ (clientDatePattern s = false ∨ strptimeYmd s = none → resolveToday s t = t)
  ∧ (resolveToday s t - t).natAbs ≤ 1 := by
  refine ⟨fun dt hp hs => ?_, fun hor => ?_, ?_⟩
  · simp [resolveToday, hp, hs]
  · rcases hor with hp | hs
    · simp [resolveToday, hp]
    · by_cases hp : clientDatePattern s = true <;> simp [resolveToday, hp, hs]
  · unfold resolveToday
    by_cases hp : clientDatePattern s = true
    · rw [if_pos hp]
      cases hs : strptimeYmd s with
      | none =>
        show (t - t).natAbs ≤ 1
        omega
      | some dt =>
        show ((if (t - civilToDays dt).natAbs ≤ 1 then civilToDays dt else t) - t).natAbs ≤ 1
        by_cases hw : (t - civilToDays dt).natAbs ≤ 1
        · rw [if_pos hw]; omega
        · rw [if_neg hw]; omega
    · rw [if_neg hp]; omega

/-- Witness for C9: the client date 2024-05-06 (day number 19849), one day
before the server's today 19850, is accepted. -/
theorem checkin_resolved_date_witness :
    clientDatePattern "2024-05-06" = true ∧
    strptimeYmd "2024-05-06" = some ⟨2024, 5, 6⟩ ∧
    resolveToday "2024-05-06" 19850 =
      if ((19850 : Int) - civilToDays ⟨2024, 5, 6⟩).natAbs ≤ 1 then civilToDays ⟨2024, 5, 6⟩
      else 19850 :=
  ⟨by decide, by decide,
    (checkin_resolved_date "2024-05-06" 19850).1 ⟨2024, 5, 6⟩ (by decide) (by decide)⟩

/-! ## List lemmas for row updates -/

theorem find?_map_ite {α : Type} (p : α → Bool) (f : α → α) (l : List α)
    (hpf : ∀ x, p (f x) = p x) :
    (l.map (fun x => if p x then f x else x)).find? p = (l.find? p).map f := by
  induction l with
  | nil => rfl
  | cons a l ih =>
    simp only [List.map_cons]
    by_cases hpa : p a = true
    · rw [if_pos hpa, List.find?_cons_of_pos _ (by rw [hpf]; exact hpa),
        List.find?_cons_of_pos _ hpa]
      rfl
    · rw [if_neg hpa, List.find?_cons_of_neg _ (by simp [hpa]),
        List.find?_cons_of_neg _ (by simp [hpa]), ih]

theorem find?_map_replace_self {α : Type} (p : α → Bool) (y : α) (l : List α)
    (hy : p y = true) (x : α) (hfound : l.find? p = some x) :
    (l.map (fun z => if p z then y else z)).find? p = some y := by
  induction l with
  | nil => simp at hfound
  | cons a l ih =>
    by_cases hpa : p a = true
    · rw [List.map_cons, if_pos hpa]
      exact List.find?_cons_of_pos _ hy
    · rw [List.find?_cons_of_neg _ (by simp [hpa])] at hfound
      rw [List.map_cons, if_neg hpa, List.find?_cons_of_neg _ (by simp [hpa])]
      exact ih hfound

theorem find?_map_replace_other {α : Type} (p q : α → Bool) (y : α) (l : List α)
    (hy : q y = false) (himp : ∀ x, p x = true → q x = false) :
    (l.map (fun z => if p z then y else z)).find? q = l.find? q := by
  induction l with
  | nil => rfl
  | cons a l ih =>
    simp only [List.map_cons]
    by_cases hpa : p a = true
    · rw [if_pos hpa, List.find?_cons_of_neg _ (by simp [hy]),
        List.find?_cons_of_neg _ (by simp [himp a hpa]), ih]
    · rw [if_neg hpa]
      by_cases hqa : q a = true
      · rw [List.find?_cons_of_pos _ hqa, List.find?_cons_of_pos _ hqa]
      · rw [List.find?_cons_of_neg _ (by simp [hqa]),
          List.find?_cons_of_neg _ (by simp [hqa]), ih]

/-! ## Check-in handler: success and error characterizations -/

/-- The database committed by a successful check-in (the success branch of
`checkin`), named for reuse in the handler lemmas. -/
def checkinSuccessDB (db : DB) (cid uid : Nat) (req : CheckinRequest) (pu : Option String)
    (m : ChallengeMember) (ch : Challenge) : DB :=
  let today := resolveToday req.client_date req.user_today
  let r := streakCalc m.current_streak m.streak_freezes ch.points_per_checkin ch.streak_bonus
    (hasCheckin db cid uid (today - 1))
  { db with
    checkins := db.checkins ++ [⟨cid, uid, today, req.note, pu⟩]
    members := db.members.map (fun x =>
      if x.challenge_id == cid && x.user_id == uid then applyCheckinToMember x r else x)
    users := db.users.map (fun u =>
      if u.id == uid then { u with total_points := u.total_points + r.points_earned } else u) }

/-- A check-in whose preconditions all pass commits exactly the success
database and returns the calculator's payload. -/
theorem checkin_success_eq (cfg : Bool) (db : DB) (cid uid : Nat) (req : CheckinRequest)
    (m : ChallengeMember) (ch : Challenge) (pu : Option String)
    (hm : findMembership db cid uid = some m)
    (hc : getChallenge db cid = some ch)
    (hcomp : ch.is_completed = false)
    (hdup : hasCheckin db cid uid (resolveToday req.client_date req.user_today) = false)
    (hp : photoStep cfg req.photo = Except.ok pu)
    (hreq : (effectiveVt ch == "photo_required" && pu.isNone) = false) :
    checkin cfg db cid uid req =
      (checkinSuccessDB db cid uid req pu m ch,
       CheckinResult.ok
         (streakCalc m.current_streak m.streak_freezes ch.points_per_checkin ch.streak_bonus
           (hasCheckin db cid uid (resolveToday req.client_date req.user_today - 1))).points_earned
         (streakCalc m.current_streak m.streak_freezes ch.points_per_checkin ch.streak_bonus
           (hasCheckin db cid uid (resolveToday req.client_date req.user_today - 1))).new_streak
         (streakCalc m.current_streak m.streak_freezes ch.points_per_checkin ch.streak_bonus
           (hasCheckin db cid uid (resolveToday req.client_date req.user_today - 1))).freeze_used
         (streakCalc m.current_streak m.streak_freezes ch.points_per_checkin ch.streak_bonus
           (hasCheckin db cid uid (resolveToday req.client_date req.user_today - 1))).freeze_earned) := by
  simp only [checkin, checkinSuccessDB, hm, hc, hcomp, hdup, hp, hreq, Bool.false_eq_true,
    if_false]

/-- A non-member's check-in fails with the not-a-member error. -/
theorem checkin_eq_notMember (cfg : Bool) (db : DB) (cid uid : Nat) (req : CheckinRequest)
    (h : findMembership db cid uid = none) :
    checkin cfg db cid uid req = (db, .err .notMember) := by
  simp [checkin, h]

/-- A check-in on a completed challenge fails with the challenge-ended error. -/
theorem checkin_eq_ended (cfg : Bool) (db : DB) (cid uid : Nat) (req : CheckinRequest)
    (m : ChallengeMember) (ch : Challenge)
    (hm : findMembership db cid uid = some m)
    (hc : getChallenge db cid = some ch)
    (hcomp : ch.is_completed = true) :
    checkin cfg db cid uid req = (db, .err .challengeEnded) := by
  simp [checkin, hm, hc, hcomp]

/-- A duplicate same-day check-in fails with the conflict error. -/
theorem checkin_eq_dup (cfg : Bool) (db : DB) (cid uid : Nat) (req : CheckinRequest)
    (m : ChallengeMember) (ch : Challenge)
    (hm : findMembership db cid uid = some m)
    (hc : getChallenge db cid = some ch)
    (hcomp : ch.is_completed = false)
    (hdup : hasCheckin db cid uid (resolveToday req.client_date req.user_today) = true) :
    checkin cfg db cid uid req = (db, .err .alreadyCheckedIn) := by
  simp [checkin, hm, hc, hcomp, hdup]

/-- A check-in carrying a named, allowed-extension file whose bytes are not
an image fails with the invalid-image error. -/
theorem checkin_eq_invalidImage (cfg : Bool) (db : DB) (cid uid : Nat) (req : CheckinRequest)
    (m : ChallengeMember) (ch : Challenge)
    (hm : findMembership db cid uid = some m)
    (hc : getChallenge db cid = some ch)
    (hcomp : ch.is_completed = false)
    (hdup : hasCheckin db cid uid (resolveToday req.client_date req.user_today) = false)
    (hp : photoStep cfg req.photo = Except.error ()) :
    checkin cfg db cid uid req = (db, .err .invalidImage) := by
  simp [checkin, hm, hc, hcomp, hdup, hp]

/-- A check-in on a photo-required challenge without a resolved photo URL
fails with the photo-required error. -/
theorem checkin_eq_photoRequired (cfg : Bool) (db : DB) (cid uid : Nat) (req : CheckinRequest)
    (m : ChallengeMember) (ch : Challenge) (pu : Option String)
    (hm : findMembership db cid uid = some m)
    (hc : getChallenge db cid = some ch)
    (hcomp : ch.is_completed = false)
    (hdup : hasCheckin db cid uid (resolveToday req.client_date req.user_today) = false)
    (hp : photoStep cfg req.photo = Except.ok pu)
    (hreq : (effectiveVt ch == "photo_required" && pu.isNone) = true) :
    checkin cfg db cid uid req = (db, .err .photoRequired) := by
  simp [checkin, hm, hc, hcomp, hdup, hp, hreq]

/-- Every error branch of the check-in handler returns the database
unchanged. -/
theorem checkin_err_db_unchanged (cfg : Bool) (db : DB) (cid uid : Nat) (req : CheckinRequest)
    (e : CheckinError) (h : (checkin cfg db cid uid req).2 = .err e) :
    (checkin cfg db cid uid req).1 = db := by
  cases hm : findMembership db cid uid with
  | none => rw [checkin_eq_notMember cfg db cid uid req hm]
  | some m =>
    cases hc : getChallenge db cid with
    | none =>
      simp [checkin, hm, hc]
    | some ch =>
      by_cases hcomp : ch.is_completed = true
      · rw [checkin_eq_ended cfg db cid uid req m ch hm hc hcomp]
      · rw [Bool.not_eq_true] at hcomp
        by_cases hdup :
            hasCheckin db cid uid (resolveToday req.client_date req.user_today) = true
        · rw [checkin_eq_dup cfg db cid uid req m ch hm hc hcomp hdup]
        · rw [Bool.not_eq_true] at hdup
          cases hp : photoStep cfg req.photo with
          | error u =>
            rw [checkin_eq_invalidImage cfg db cid uid req m ch hm hc hcomp hdup (by rw [hp])]
          | ok pu =>
            by_cases hreq : (effectiveVt ch == "photo_required" && pu.isNone) = true
            · rw [checkin_eq_photoRequired cfg db cid uid req m ch pu hm hc hcomp hdup hp hreq]
            · rw [Bool.not_eq_true] at hreq
              rw [checkin_success_eq cfg db cid uid req m ch pu hm hc hcomp hdup hp hreq] at h
              simp at h

/-- Inversion of a successful check-in: all the preconditions passed and
the committed database is the success database. -/
theorem checkin_ok_inv (cfg : Bool) (db : DB) (cid uid : Nat) (req : CheckinRequest)
    (db2 : DB) (pe ns : Int) (fu : Bool) (fe : Int)
    (h : checkin cfg db cid uid req = (db2, .ok pe ns fu fe)) :
    ∃ m ch pu,
      findMembership db cid uid = some m ∧
      getChallenge db cid = some ch ∧
      ch.is_completed = false ∧
      hasCheckin db cid uid (resolveToday req.client_date req.user_today) = false ∧
      photoStep cfg req.photo = Except.ok pu ∧
      (effectiveVt ch == "photo_required" && pu.isNone) = false ∧
      db2 = checkinSuccessDB db cid uid req pu m ch := by
  cases hm : findMembership db cid uid with
  | none => rw [checkin_eq_notMember cfg db cid uid req hm] at h; simp at h
  | some m =>
    cases hc : getChallenge db cid with
    | none => simp [checkin, hm, hc] at h
    | some ch =>
      by_cases hcomp : ch.is_completed = true
      · rw [checkin_eq_ended cfg db cid uid req m ch hm hc hcomp] at h; simp at h
      · rw [Bool.not_eq_true] at hcomp
        by_cases hdup :
            hasCheckin db cid uid (resolveToday req.client_date req.user_today) = true
        · rw [checkin_eq_dup cfg db cid uid req m ch hm hc hcomp hdup] at h; simp at h
        · rw [Bool.not_eq_true] at hdup
          cases hp : photoStep cfg req.photo with
          | error u =>
            rw [checkin_eq_invalidImage cfg db cid uid req m ch hm hc hcomp hdup
              (by rw [hp])] at h
            simp at h
          | ok pu =>
            by_cases hreq : (effectiveVt ch == "photo_required" && pu.isNone) = true
            · rw [checkin_eq_photoRequired cfg db cid uid req m ch pu hm hc hcomp hdup hp
                hreq] at h
              simp at h
            · rw [Bool.not_eq_true] at hreq
              rw [checkin_success_eq cfg db cid uid req m ch pu hm hc hcomp hdup hp hreq] at h
              have h1 := congrArg Prod.fst h
              exact ⟨m, ch, pu, rfl, rfl, hcomp, hdup, rfl, hreq, h1.symm⟩

/-- The success database keeps the challenge table unchanged. -/
theorem getChallenge_successDB (db : DB) (cid uid : Nat) (req : CheckinRequest)
    (pu : Option String) (m : ChallengeMember) (ch : Challenge) (c : Nat) :
    getChallenge (checkinSuccessDB db cid uid req pu m ch) c = getChallenge db c := rfl

/-- The success database records a check-in for the resolved date. -/
theorem hasCheckin_successDB (db : DB) (cid uid : Nat) (req : CheckinRequest)
    (pu : Option String) (m : ChallengeMember) (ch : Challenge) :
    hasCheckin (checkinSuccessDB db cid uid req pu m ch) cid uid
      (resolveToday req.client_date req.user_today) = true := by
  unfold checkinSuccessDB hasCheckin
  simp

/-- The membership row in the success database is the calculator-updated row. -/
theorem findMembership_successDB (db : DB) (cid uid : Nat) (req : CheckinRequest)
    (pu : Option String) (m : ChallengeMember) (ch : Challenge)
    (hm : findMembership db cid uid = some m) :
    findMembership (checkinSuccessDB db cid uid req pu m ch) cid uid =
      some (applyCheckinToMember m
        (streakCalc m.current_streak m.streak_freezes ch.points_per_checkin ch.streak_bonus
          (hasCheckin db cid uid (resolveToday req.client_date req.user_today - 1)))) := by
  simp only [checkinSuccessDB, findMembership]
  rw [find?_map_ite (fun x => x.challenge_id == cid && x.user_id == uid)
    (fun x => applyCheckinToMember x
      (streakCalc m.current_streak m.streak_freezes ch.points_per_checkin ch.streak_bonus
        (hasCheckin db cid uid (resolveToday req.client_date req.user_today - 1))))
    db.members (fun x => rfl)]
  unfold findMembership at hm
  rw [hm]
  rfl

/-- The user row in the success database carries the added points. -/
theorem getUser_successDB (db : DB) (cid uid : Nat) (req : CheckinRequest)
    (pu : Option String) (m : ChallengeMember) (ch : Challenge) (u : UserRow)
    (hu : getUser db uid = some u) :
    getUser (checkinSuccessDB db cid uid req pu m ch) uid =
      some { u with total_points := u.total_points +
        (streakCalc m.current_streak m.streak_freezes ch.points_per_checkin ch.streak_bonus
          (hasCheckin db cid uid (resolveToday req.client_date req.user_today - 1))).points_earned } := by
  simp only [checkinSuccessDB, getUser]
  rw [find?_map_ite (fun x => x.id == uid)
    (fun x => { x with total_points := x.total_points +
      (streakCalc m.current_streak m.streak_freezes ch.points_per_checkin ch.streak_bonus
        (hasCheckin db cid uid (resolveToday req.client_date req.user_today - 1))).points_earned })
    db.users (fun x => rfl)]
  unfold getUser at hu
  rw [hu]
  rfl

/-- The pre-clamp freeze balance is already nonnegative when the prior
balance is. -/
theorem freeze_balance_nonneg (cs fr base bonus : Int) (cy : Bool) (hfr : 0 ≤ fr) :
    0 ≤ fr + (streakCalc cs fr base bonus cy).freeze_earned -
      (if (streakCalc cs fr base bonus cy).freeze_used then 1 else 0) := by
  have hnn := streakCalc_freeze_earned_nonneg cs fr base bonus cy
  have hpos := streakCalc_freeze_used_pos cs fr base bonus cy
  cases hu : (streakCalc cs fr base bonus cy).freeze_used with
  | true =>
    have := (hpos hu).2
    simp only [if_pos rfl]
    omega
  | false =>
    simp only [Bool.false_eq_true, if_false]
    omega

/-- The clamp in the freeze-balance update is the identity on states with a
nonnegative freeze balance. -/
theorem applyCheckinToMember_eq_of_nonneg (m : ChallengeMember) (base bonus : Int) (cy : Bool)
    (hfr : 0 ≤ m.streak_freezes) :
    applyCheckinToMember m (streakCalc m.current_streak m.streak_freezes base bonus cy) =
      { m with
        points := m.points +
          (streakCalc m.current_streak m.streak_freezes base bonus cy).points_earned
        current_streak := (streakCalc m.current_streak m.streak_freezes base bonus cy).new_streak
        best_streak := max m.best_streak
          (streakCalc m.current_streak m.streak_freezes base bonus cy).new_streak
        streak_freezes := m.streak_freezes +
          (streakCalc m.current_streak m.streak_freezes base bonus cy).freeze_earned -
          (if (streakCalc m.current_streak m.streak_freezes base bonus cy).freeze_used
            then 1 else 0)
        freezes_used := m.freezes_used +
          (if (streakCalc m.current_streak m.streak_freezes base bonus cy).freeze_used
            then 1 else 0) } := by
  have h := freeze_balance_nonneg m.current_streak m.streak_freezes base bonus cy hfr
  unfold applyCheckinToMember
  congr 1
  omega

/-- C4: the check-in preconditions are checked in the order membership,
challenge not completed, no duplicate check-in for the resolved date, valid
image bytes, photo requirement; the first failing check returns a typed
error and leaves the database unchanged; and a second check-in for the same
user, challenge and day fails with the conflict error, leaving the first
attempt's state unchanged. -/
theorem checkin_precondition_order (cfg : Bool) (db : DB) (cid uid : Nat)
    (req : CheckinRequest) :
    (findMembership db cid uid = none →
      checkin cfg db cid uid req = (db, CheckinResult.err CheckinError.notMember))
  ∧ (∀ m ch, findMembership db cid uid = some m → getChallenge db cid = some ch →
      ch.is_completed = true →
      checkin cfg db cid uid req = (db, CheckinResult.err CheckinError.challengeEnded))
  ∧ (∀ m ch, findMembership db cid uid = some m → getChallenge db cid = some ch →
      ch.is_completed = false →
      hasCheckin db cid uid (resolveToday req.client_date req.user_today) = true →
      checkin cfg db cid uid req = (db, CheckinResult.err CheckinError.alreadyCheckedIn))
  ∧ (∀ m ch, findMembership db cid uid = some m → getChallenge db cid = some ch →
      ch.is_completed = false →
      hasCheckin db cid uid (resolveToday req.client_date req.user_today) = false →
      photoStep cfg req.photo = Except.error () →
      checkin cfg db cid uid req = (db, CheckinResult.err CheckinError.invalidImage))
  ∧ (∀ m ch pu, findMembership db cid uid = some m → getChallenge db cid = some ch →
      ch.is_completed = false →
      hasCheckin db cid uid (resolveToday req.client_date req.user_today) = false →
      photoStep cfg req.photo = Except.ok pu →
      (effectiveVt ch == "photo_required" && pu.isNone) = true →
      checkin cfg db cid uid req = (db, CheckinResult.err CheckinError.photoRequired))
  ∧ (∀ e, (checkin cfg db cid uid req).2 = .err e → (checkin cfg db cid uid req).1 = db)
  ∧ (∀ db2 pe ns fu fe, checkin cfg db cid uid req = (db2, .ok pe ns fu fe) →
      checkin cfg db2 cid uid req = (db2, CheckinResult.err CheckinError.alreadyCheckedIn)) := by
  refine ⟨checkin_eq_notMember cfg db cid uid req,
    fun m ch hm hc hcomp => checkin_eq_ended cfg db cid uid req m ch hm hc hcomp,
    fun m ch hm hc hcomp hdup => checkin_eq_dup cfg db cid uid req m ch hm hc hcomp hdup,
    fun m ch hm hc hcomp hdup hp =>
      checkin_eq_invalidImage cfg db cid uid req m ch hm hc hcomp hdup hp,
    fun m ch pu hm hc hcomp hdup hp hreq =>
      checkin_eq_photoRequired cfg db cid uid req m ch pu hm hc hcomp hdup hp hreq,
    checkin_err_db_unchanged cfg db cid uid req,
    ?_⟩
  intro db2 pe ns fu fe hok
  obtain ⟨m, ch, pu, hm, hc, hcomp, hdup, hp, hreq, hdb2⟩ :=
    checkin_ok_inv cfg db cid uid req db2 pe ns fu fe hok
  subst hdb2
  exact checkin_eq_dup cfg _ cid uid req _ ch
    (findMembership_successDB db cid uid req pu m ch hm)
    ((getChallenge_successDB db cid uid req pu m ch cid).trans hc)
    hcomp
    (hasCheckin_successDB db cid uid req pu m ch)

/-- Witness for C4: in the example database that already holds a check-in
for the resolved day, a second check-in fails with the conflict error and
the database is unchanged. -/
theorem checkin_precondition_order_witness :
    findMembership exampleDupDB 1 1 = some exampleMember ∧
    getChallenge exampleDupDB 1 = some exampleChallenge ∧
    exampleChallenge.is_completed = false ∧
    hasCheckin exampleDupDB 1 1 (resolveToday exampleReq.client_date exampleReq.user_today)
      = true ∧
    checkin true exampleDupDB 1 1 exampleReq =
      (exampleDupDB, CheckinResult.err CheckinError.alreadyCheckedIn) :=
  ⟨rfl, rfl, rfl, rfl,
    (checkin_precondition_order true exampleDupDB 1 1 exampleReq).2.2.1
      exampleMember exampleChallenge rfl rfl rfl rfl⟩

/-- C5: a check-in that passes all preconditions commits, in the one
transaction, the new check-in row for the resolved date together with the
membership update (points added, streak set, best streak via max, freeze
balance adjusted by earned minus consumed) and the user's lifetime point
total, leaving all other tables unchanged. -/
theorem checkin_atomic_commit (cfg : Bool) (db : DB) (cid uid : Nat) (req : CheckinRequest)
    (m : ChallengeMember) (ch : Challenge) (pu : Option String) (u : UserRow)
    (hm : findMembership db cid uid = some m)
    (hc : getChallenge db cid = some ch)
    (hcomp : ch.is_completed = false)
    (hdup : hasCheckin db cid uid (resolveToday req.client_date req.user_today) = false)
    (hp : photoStep cfg req.photo = Except.ok pu)
    (hreq : (effectiveVt ch == "photo_required" && pu.isNone) = false)
    (hu : getUser db uid = some u)
    (hfr : 0 ≤ m.streak_freezes) :
    (checkin cfg db cid uid req).2 =
      CheckinResult.ok
        (streakCalc m.current_streak m.streak_freezes ch.points_per_checkin ch.streak_bonus
          (hasCheckin db cid uid (resolveToday req.client_date req.user_today - 1))).points_earned
        (streakCalc m.current_streak m.streak_freezes ch.points_per_checkin ch.streak_bonus
          (hasCheckin db cid uid (resolveToday req.client_date req.user_today - 1))).new_streak
        (streakCalc m.current_streak m.streak_freezes ch.points_per_checkin ch.streak_bonus
          (hasCheckin db cid uid (resolveToday req.client_date req.user_today - 1))).freeze_used
        (streakCalc m.current_streak m.streak_freezes ch.points_per_checkin ch.streak_bonus
          (hasCheckin db cid uid (resolveToday req.client_date req.user_today - 1))).freeze_earned
  ∧ (checkin cfg db cid uid req).1.checkins =
      db.checkins ++ [⟨cid, uid, resolveToday req.client_date req.user_today, req.note, pu⟩]
  ∧ findMembership (checkin cfg db cid uid req).1 cid uid = some
      { m with
        points := m.points +
          (streakCalc m.current_streak m.streak_freezes ch.points_per_checkin ch.streak_bonus
            (hasCheckin db cid uid (resolveToday req.client_date req.user_today - 1))).points_earned
        current_streak :=
          (streakCalc m.current_streak m.streak_freezes ch.points_per_checkin ch.streak_bonus
            (hasCheckin db cid uid (resolveToday req.client_date req.user_today - 1))).new_streak
        best_streak := max m.best_streak
          (streakCalc m.current_streak m.streak_freezes ch.points_per_checkin ch.streak_bonus
            (hasCheckin db cid uid (resolveToday req.client_date req.user_today - 1))).new_streak
        streak_freezes := m.streak_freezes +
          (streakCalc m.current_streak m.streak_freezes ch.points_per_checkin ch.streak_bonus
            (hasCheckin db cid uid (resolveToday req.client_date req.user_today - 1))).freeze_earned -
          (if (streakCalc m.current_streak m.streak_freezes ch.points_per_checkin ch.streak_bonus
            (hasCheckin db cid uid (resolveToday req.client_date req.user_today - 1))).freeze_used
            then 1 else 0)
        freezes_used := m.freezes_used +
          (if (streakCalc m.current_streak m.streak_freezes ch.points_per_checkin ch.streak_bonus
            (hasCheckin db cid uid (resolveToday req.client_date req.user_today - 1))).freeze_used
            then 1 else 0) }
  ∧ getUser (checkin cfg db cid uid req).1 uid = some
      { u with total_points := u.total_points +
          (streakCalc m.current_streak m.streak_freezes ch.points_per_checkin ch.streak_bonus
            (hasCheckin db cid uid (resolveToday req.client_date req.user_today - 1))).points_earned }
  ∧ (checkin cfg db cid uid req).1.challenges = db.challenges
  ∧ (checkin cfg db cid uid req).1.achievements = db.achievements
  ∧ (checkin cfg db cid uid req).1.userAchievements = db.userAchievements
  ∧ (checkin cfg db cid uid req).1.notifications = db.notifications := by
  have hs := checkin_success_eq cfg db cid uid req m ch pu hm hc hcomp hdup hp hreq
  have h1 : (checkin cfg db cid uid req).1 = checkinSuccessDB db cid uid req pu m ch := by
    rw [hs]
  have h2 := congrArg Prod.snd hs
  refine ⟨h2, ?_, ?_, ?_, ?_, ?_, ?_, ?_⟩
  · rw [h1]; rfl
  · rw [h1, findMembership_successDB db cid uid req pu m ch hm,
      applyCheckinToMember_eq_of_nonneg m ch.points_per_checkin ch.streak_bonus
        (hasCheckin db cid uid (resolveToday req.client_date req.user_today - 1)) hfr]
  · rw [h1]; exact getUser_successDB db cid uid req pu m ch u hu
  · rw [h1]; rfl
  · rw [h1]; rfl
  · rw [h1]; rfl
  · rw [h1]; rfl

/-- Witness for C5 on the fresh example database: the committed check-in
list is the old list plus the new row. -/
theorem checkin_atomic_commit_witness :
    (0 : Int) ≤ exampleMember.streak_freezes ∧
    (checkin true exampleFreshDB 1 1 exampleReq).1.checkins =
      exampleFreshDB.checkins ++
        [⟨1, 1, resolveToday exampleReq.client_date exampleReq.user_today, exampleReq.note,
          none⟩] :=
  ⟨by decide,
    (checkin_atomic_commit true exampleFreshDB 1 1 exampleReq exampleMember exampleChallenge
      none exampleUser rfl rfl rfl rfl rfl rfl rfl (by decide)).2.1⟩

/-- C10: on a challenge that does not require photo proof, a check-in whose
valid photo cannot be uploaded (host unconfigured or upload failure) still
succeeds and is recorded with no photo reference. -/
theorem checkin_upload_failure_ok (cfg : Bool) (db : DB) (cid uid : Nat)
    (req : CheckinRequest) (p : PhotoFile) (m : ChallengeMember) (ch : Challenge)
    (hm : findMembership db cid uid = some m)
    (hc : getChallenge db cid = some ch)
    (hcomp : ch.is_completed = false)
    (hdup : hasCheckin db cid uid (resolveToday req.client_date req.user_today) = false)
    (hphoto : req.photo = some p)
    (hname : p.filename ≠ "")
    (hext : allowed_file p.filename = true)
    (hbytes : validate_image_file p.header = true)
    (hfail : cfg = false ∨ p.uploadResult = none)
    (hvt : effectiveVt ch ≠ "photo_required") :
    (checkin cfg db cid uid req).2.isOk = true
  ∧ (checkin cfg db cid uid req).1.checkins =
      db.checkins ++
        [⟨cid, uid, resolveToday req.client_date req.user_today, req.note, none⟩] := by
  have hps : photoStep cfg req.photo = Except.ok none := by
    rw [hphoto]
    simp only [photoStep]
    rw [if_pos (And.intro hname hext), if_pos hbytes]
    rcases hfail with hf | hf
    · subst hf; rfl
    · rw [hf]; cases cfg <;> rfl
  have hreq : (effectiveVt ch == "photo_required" && (none : Option String).isNone) = false := by
    have hne : (effectiveVt ch == "photo_required") = false := beq_eq_false_iff_ne.mpr hvt
    rw [hne]
    rfl
  have hs := checkin_success_eq cfg db cid uid req m ch none hm hc hcomp hdup hps hreq
  have h1 : (checkin cfg db cid uid req).1 = checkinSuccessDB db cid uid req none m ch := by
    rw [hs]
  have h2 := congrArg Prod.snd hs
  constructor
  · rw [h2]; rfl
  · rw [h1]; rfl

/-- Witness for C10: with Cloudinary unconfigured, the example photo
check-in succeeds and stores no photo URL. -/
theorem checkin_upload_failure_ok_witness :
    (checkin false exampleFreshDB 1 1 examplePhotoReq).2.isOk = true ∧
    (checkin false exampleFreshDB 1 1 examplePhotoReq).1.checkins =
      exampleFreshDB.checkins ++
        [⟨1, 1, resolveToday examplePhotoReq.client_date examplePhotoReq.user_today,
          examplePhotoReq.note, none⟩] :=
  checkin_upload_failure_ok false exampleFreshDB 1 1 examplePhotoReq examplePhoto
    exampleMember exampleChallenge rfl rfl rfl rfl rfl (by decide) (by decide) (by decide)
    (Or.inl rfl) (by decide)

/-! ## Achievement evaluator lemmas -/

/-- One evaluator run touches only the user-achievement and notification
tables. -/
theorem check_achievements_fields (db : DB) (uid : Nat) :
    (check_achievements db uid).users = db.users ∧
    (check_achievements db uid).challenges = db.challenges ∧
    (check_achievements db uid).members = db.members ∧
    (check_achievements db uid).checkins = db.checkins ∧
    (check_achievements db uid).achievements = db.achievements := by
  unfold check_achievements
  split
  · exact ⟨rfl, rfl, rfl, rfl, rfl⟩
  · split
    · exact ⟨rfl, rfl, rfl, rfl, rfl⟩
    · exact ⟨rfl, rfl, rfl, rfl, rfl⟩

/-- The aggregate statistics are untouched by an evaluator run. -/
theorem computeStats_check_achievements (db : DB) (uid uid2 : Nat) :
    computeStats (check_achievements db uid) uid2 = computeStats db uid2 := by
  obtain ⟨hu, hc, hm, hk, ha⟩ := check_achievements_fields db uid
  unfold computeStats
  rw [hc, hm, hk]

/-- The user-achievement rows after a run are the old rows plus one row per
new award. -/
theorem check_achievements_ua (db : DB) (uid : Nat) (u : UserRow)
    (hg : getUser db uid = some u) :
    (check_achievements db uid).userAchievements =
      db.userAchievements ++
        (newAwardsOf db uid).map (fun a => (⟨uid, a.id⟩ : UserAchievement)) := by
  simp only [check_achievements, hg]
  split
  · rename_i he
    have h0 : unearnedOf db uid = [] := List.isEmpty_iff.mp he
    have h1 : newAwardsOf db uid = [] := by unfold newAwardsOf; rw [h0]; rfl
    rw [h1]
    simp
  · rfl

/-- The notifications after a run are the old ones plus one per new award. -/
theorem check_achievements_notif (db : DB) (uid : Nat) (u : UserRow)
    (hg : getUser db uid = some u) :
    (check_achievements db uid).notifications =
      db.notifications ++
        (newAwardsOf db uid).map (fun a => achievementNotification uid a) := by
  simp only [check_achievements, hg]
  split
  · rename_i he
    have h0 : unearnedOf db uid = [] := List.isEmpty_iff.mp he
    have h1 : newAwardsOf db uid = [] := by unfold newAwardsOf; rw [h0]; rfl
    rw [h1]
    simp
  · rfl

/-- An achievement id is earned exactly when the corresponding
user-achievement row exists. -/
theorem mem_earnedIds (db : DB) (uid aid : Nat) :
    aid ∈ earnedIds db uid ↔ (⟨uid, aid⟩ : UserAchievement) ∈ db.userAchievements := by
  unfold earnedIds
  constructor
  · intro h
    obtain ⟨ua, hmem, hid⟩ := List.mem_map.mp h
    obtain ⟨hmem2, hu⟩ := List.mem_filter.mp hmem
    have hu2 : ua.user_id = uid := by simpa using hu
    have heq : ua = ⟨uid, aid⟩ := by
      cases ua
      simp_all
    rwa [heq] at hmem2
  · intro h
    exact List.mem_map.mpr ⟨⟨uid, aid⟩, List.mem_filter.mpr ⟨h, by simp⟩, rfl⟩

/-- Earned ids after a run: the old ones plus the ids of the new awards. -/
theorem earnedIds_check_achievements (db : DB) (uid : Nat) (u : UserRow)
    (hg : getUser db uid = some u) :
    earnedIds (check_achievements db uid) uid =
      earnedIds db uid ++ (newAwardsOf db uid).map (fun a => a.id) := by
  have hall : ∀ x ∈ (newAwardsOf db uid).map (fun a => (⟨uid, a.id⟩ : UserAchievement)),
      (x.user_id == uid) = true := by
    intro x hx
    obtain ⟨b, hb, rfl⟩ := List.mem_map.mp hx
    simp
  unfold earnedIds
  rw [check_achievements_ua db uid u hg, List.filter_append, List.map_append]
  congr 1
  rw [List.filter_eq_self.mpr hall, List.map_map]
  rfl

/-- After one run, a second run has nothing left to award. -/
theorem newAwards_check_achievements (db : DB) (uid : Nat) (u : UserRow)
    (hg : getUser db uid = some u) :
    newAwardsOf (check_achievements db uid) uid = [] := by
  unfold newAwardsOf
  apply List.filter_eq_nil_iff.mpr
  intro a ha hmet
  rw [computeStats_check_achievements db uid uid] at hmet
  unfold unearnedOf at ha
  obtain ⟨hmem, hnotc⟩ := List.mem_filter.mp ha
  rw [(check_achievements_fields db uid).2.2.2.2] at hmem
  have hnot : a.id ∉ earnedIds (check_achievements db uid) uid := by
    simpa using hnotc
  apply hnot
  rw [earnedIds_check_achievements db uid u hg]
  by_cases hin : a.id ∈ earnedIds db uid
  · exact List.mem_append.mpr (Or.inl hin)
  · refine List.mem_append.mpr (Or.inr (List.mem_map.mpr ⟨a, ?_, rfl⟩))
    unfold newAwardsOf
    refine List.mem_filter.mpr ⟨?_, hmet⟩
    unfold unearnedOf
    exact List.mem_filter.mpr ⟨hmem, by simpa using hin⟩

/-- C6: for a user, one evaluator run records each achievement whose
matching statistic meets its threshold exactly once (given the unique
constraints on achievement ids and user-achievement rows), emits exactly
one notification per new award, and a second run with no intervening
activity changes nothing at all. -/
theorem achievements_idempotent (db : DB) (uid : Nat) (u : UserRow)
    (hg : getUser db uid = some u)
    (hids : (db.achievements.map (fun a => a.id)).Nodup)
    (hua : db.userAchievements.Nodup) :
    (∀ a ∈ db.achievements, achievementMet (computeStats db uid) a = true →
      (check_achievements db uid).userAchievements.count
        (⟨uid, a.id⟩ : UserAchievement) = 1)
  ∧ (check_achievements db uid).notifications.length =
      db.notifications.length +
        ((check_achievements db uid).userAchievements.length - db.userAchievements.length)
  ∧ check_achievements (check_achievements db uid) uid = check_achievements db uid := by
  refine ⟨?_, ?_, ?_⟩
  · intro a ha hmet
    rw [check_achievements_ua db uid u hg, List.count_append]
    by_cases hin : a.id ∈ earnedIds db uid
    · have h1 : db.userAchievements.count ⟨uid, a.id⟩ = 1 :=
        List.count_eq_one_of_mem hua ((mem_earnedIds db uid a.id).mp hin)
      have h2 : ((newAwardsOf db uid).map
          (fun b => (⟨uid, b.id⟩ : UserAchievement))).count ⟨uid, a.id⟩ = 0 := by
        apply List.count_eq_zero.mpr
        intro hmem
        obtain ⟨b, hb, heq⟩ := List.mem_map.mp hmem
        have hbid : b.id = a.id := by
          simpa using congrArg UserAchievement.achievement_id heq
        obtain ⟨hbu, hmetb⟩ := List.mem_filter.mp hb
        obtain ⟨hba, hbnc⟩ := List.mem_filter.mp hbu
        have hbnot : b.id ∉ earnedIds db uid := by simpa using hbnc
        exact hbnot (hbid ▸ hin)
      omega
    · have h1 : db.userAchievements.count ⟨uid, a.id⟩ = 0 :=
        List.count_eq_zero.mpr (fun hmem => hin ((mem_earnedIds db uid a.id).mpr hmem))
      have hanew : a ∈ newAwardsOf db uid := by
        unfold newAwardsOf
        refine List.mem_filter.mpr ⟨?_, hmet⟩
        unfold unearnedOf
        exact List.mem_filter.mpr ⟨ha, by simpa using hin⟩
      have hsub : (newAwardsOf db uid).Sublist db.achievements :=
        (List.filter_sublist _).trans (List.filter_sublist _)
      have hids2 : ((newAwardsOf db uid).map (fun b => b.id)).Nodup :=
        hids.sublist (hsub.map (fun b => b.id))
      have hinj : Function.Injective (fun i => (⟨uid, i⟩ : UserAchievement)) := by
        intro i j hij
        simpa using congrArg UserAchievement.achievement_id hij
      have hnodupmap : ((newAwardsOf db uid).map
          (fun b => (⟨uid, b.id⟩ : UserAchievement))).Nodup := by
        rw [show (newAwardsOf db uid).map (fun b => (⟨uid, b.id⟩ : UserAchievement)) =
            ((newAwardsOf db uid).map (fun b => b.id)).map
              (fun i => (⟨uid, i⟩ : UserAchievement)) from by rw [List.map_map]; rfl]
        exact hids2.map hinj
      have hmemmap : (⟨uid, a.id⟩ : UserAchievement) ∈
          (newAwardsOf db uid).map (fun b => (⟨uid, b.id⟩ : UserAchievement)) :=
        List.mem_map.mpr ⟨a, hanew, rfl⟩
      have h2 := List.count_eq_one_of_mem hnodupmap hmemmap
      omega
  · rw [check_achievements_ua db uid u hg, check_achievements_notif db uid u hg,
      List.length_append, List.length_append, List.length_map, List.length_map]
    omega
  · have h1 : getUser (check_achievements db uid) uid = some u := by
      unfold getUser
      rw [(check_achievements_fields db uid).1]
      exact hg
    have h2 := newAwards_check_achievements db uid u hg
    rw [check_achievements]
    simp only [h1, h2, List.map_nil, List.append_nil]
    split <;> rfl

/-- Witness for C6 on the example database with one check-in and one
unearned achievement: the evaluator is idempotent there. -/
theorem achievements_idempotent_witness :
    getUser exampleAchDB 1 = some exampleUser ∧
    (exampleAchDB.achievements.map (fun a => a.id)).Nodup ∧
    exampleAchDB.userAchievements.Nodup ∧
    check_achievements (check_achievements exampleAchDB 1) 1 =
      check_achievements exampleAchDB 1 :=
  ⟨rfl, by decide, by decide,
    (achievements_idempotent exampleAchDB 1 exampleUser rfl (by decide) (by decide)).2.2⟩

/-! ## Challenge lifecycle lemmas -/

/-- A found challenge row carries the looked-up id. -/
theorem getChallenge_some_id (db : DB) (cid : Nat) (ch : Challenge)
    (hg : getChallenge db cid = some ch) : ch.id = cid := by
  have := List.find?_some hg
  simpa using this

/-- The lifecycle step never touches the membership table. -/
theorem lifecycleStep_members (t : Int) (d : DB) (c : Nat) :
    (lifecycleStep t d c).members = d.members := by
  unfold lifecycleStep
  split
  · rfl
  · split
    · rfl
    · split
      · rfl
      · rfl

/-- The lifecycle step for one challenge leaves every other challenge's row
unchanged. -/
theorem lifecycleStep_get_other (t : Int) (d : DB) (c cid : Nat) (hne : c ≠ cid) :
    getChallenge (lifecycleStep t d c) cid = getChallenge d cid := by
  unfold lifecycleStep
  split
  · rfl
  · rename_i ch heq
    split
    · rfl
    · split
      · have hid : ch.id = c := getChallenge_some_id d c ch heq
        unfold getChallenge
        dsimp only
        apply find?_map_replace_other
        · dsimp only
          rw [hid]
          exact beq_eq_false_iff_ne.mpr hne
        · intro x hx
          have hxid : x.id = c := by simpa using hx
          rw [hxid]
          exact beq_eq_false_iff_ne.mpr hne
      · rfl

/-- The lifecycle step maps the processed challenge's row through
`completeDue`. -/
theorem lifecycleStep_get_self (t : Int) (d : DB) (cid : Nat) (ch : Challenge)
    (hg : getChallenge d cid = some ch) :
    getChallenge (lifecycleStep t d cid) cid = some (completeDue t d.members cid ch) := by
  have hid : ch.id = cid := getChallenge_some_id d cid ch hg
  simp only [lifecycleStep, completeDue, hg]
  split
  · exact hg
  · rename_i e he
    split
    · rename_i hcond
      unfold getChallenge
      dsimp only
      refine find?_map_replace_self _ _ _ ?_ ch hg
      dsimp only
      rw [hid]
      simp
    · exact hg

/-- The lifecycle step on a missing challenge id changes nothing it looks
up later. -/
theorem lifecycleStep_get_none (t : Int) (d : DB) (c cid : Nat)
    (h : getChallenge d cid = none) :
    getChallenge (lifecycleStep t d c) cid = none := by
  by_cases hne : c = cid
  · subst hne
    simp only [lifecycleStep, h]
  · rw [lifecycleStep_get_other t d c cid hne]
    exact h

/-- The lifecycle step is the identity when the challenge's completion
condition does not fire. -/
theorem lifecycleStep_eq_self (t : Int) (d : DB) (cid : Nat)
    (h : ∀ ch, getChallenge d cid = some ch →
      ∀ e, ch.end_date = some e → e < t → ch.is_completed = true) :
    lifecycleStep t d cid = d := by
  unfold lifecycleStep
  split
  · rfl
  · rename_i ch heq
    split
    · rfl
    · rename_i e he
      split
      · rename_i hcond
        have := h ch heq e he hcond.1
        rw [this] at hcond
        exact absurd hcond.2 (by simp)
      · rfl

/-- A lifecycle fold never touches the membership table. -/
theorem foldl_lifecycle_members (t : Int) (l : List Nat) (d : DB) :
    (l.foldl (lifecycleStep t) d).members = d.members := by
  induction l generalizing d with
  | nil => rfl
  | cons c l ih => rw [List.foldl_cons, ih, lifecycleStep_members]

/-- A lifecycle fold over other challenge ids preserves a challenge row. -/
theorem foldl_lifecycle_get_not_mem (t : Int) (l : List Nat) (d : DB) (cid : Nat)
    (h : cid ∉ l) :
    getChallenge (l.foldl (lifecycleStep t) d) cid = getChallenge d cid := by
  induction l generalizing d with
  | nil => rfl
  | cons c l ih =>
    rw [List.foldl_cons, ih _ (fun hm => h (List.mem_cons_of_mem c hm)),
      lifecycleStep_get_other t d c cid (fun he => h (he ▸ List.mem_cons_self c l))]

/-- A lifecycle fold preserves the absence of a challenge row. -/
theorem foldl_lifecycle_get_none (t : Int) (l : List Nat) (d : DB) (cid : Nat)
    (h : getChallenge d cid = none) :
    getChallenge (l.foldl (lifecycleStep t) d) cid = none := by
  induction l generalizing d with
  | nil => exact h
  | cons c l ih =>
    rw [List.foldl_cons]
    exact ih _ (lifecycleStep_get_none t d c cid h)

/-- A lifecycle fold over a duplicate-free id list that contains a
challenge maps that challenge's row through `completeDue` exactly once. -/
theorem foldl_lifecycle_get_of_mem (t : Int) (l : List Nat) (d : DB) (cid : Nat)
    (ch : Challenge) (hmem : cid ∈ l) (hnd : l.Nodup)
    (hg : getChallenge d cid = some ch) :
    getChallenge (l.foldl (lifecycleStep t) d) cid =
      some (completeDue t d.members cid ch) := by
  revert hmem hnd
  induction l generalizing d with
  | nil => intro hmem hnd; simp at hmem
  | cons c l ih =>
    intro hmem hnd
    rw [List.foldl_cons]
    rcases List.mem_cons.mp hmem with heq | hmem2
    · subst heq
      have hstep := lifecycleStep_get_self t d cid ch hg
      have hnotin : cid ∉ l := (List.nodup_cons.mp hnd).1
      rw [foldl_lifecycle_get_not_mem t l _ cid hnotin, hstep]
    · have hne : c ≠ cid := by
        intro he
        subst he
        exact (List.nodup_cons.mp hnd).1 hmem2
      have hg2 : getChallenge (lifecycleStep t d c) cid = some ch := by
        rw [lifecycleStep_get_other t d c cid hne]
        exact hg
      have := ih (lifecycleStep t d c) hg2 hmem2 (List.nodup_cons.mp hnd).2
      rwa [lifecycleStep_members] at this

/-- A fold of identity steps is the identity. -/
theorem foldl_lifecycle_id_of_quiet (t : Int) (l : List Nat) (d : DB)
    (h : ∀ c ∈ l, lifecycleStep t d c = d) :
    l.foldl (lifecycleStep t) d = d := by
  induction l with
  | nil => rfl
  | cons c l ih =>
    rw [List.foldl_cons, h c (List.mem_cons_self c l)]
    exact ih (fun c2 hc2 => h c2 (List.mem_cons_of_mem c hc2))

/-- `completeDue` never changes the end date. -/
theorem completeDue_end_date (t : Int) (ms : List ChallengeMember) (cid : Nat)
    (ch : Challenge) : (completeDue t ms cid ch).end_date = ch.end_date := by
  unfold completeDue
  split
  · rfl
  · split
    · rfl
    · rfl

/-- The completion flag of `completeDue`: set exactly when it was already
set or the end date has passed. -/
theorem completeDue_is_completed (t : Int) (ms : List ChallengeMember) (cid : Nat)
    (ch : Challenge) :
    ((completeDue t ms cid ch).is_completed = true ↔
      (ch.is_completed = true ∨ ∃ e, ch.end_date = some e ∧ e < t)) := by
  unfold completeDue
  split
  · rename_i heq
    constructor
    · intro h
      exact Or.inl h
    · rintro (h | ⟨e, he2, _⟩)
      · exact h
      · rw [heq] at he2
        exact absurd he2 (by simp)
  · rename_i e heq
    split
    · rename_i hcond
      constructor
      · intro _
        exact Or.inr ⟨e, heq, hcond.1⟩
      · intro _
        rfl
    · rename_i hcond
      by_cases hcomp : ch.is_completed = true
      · simp [hcomp]
      · have hnl : ¬ e < t := by
          intro hl
          exact hcond ⟨hl, by simpa using hcomp⟩
        simp [heq, hcomp, hnl]

/-- Unfolding equation of `selectWinner` on a nonempty list. -/
theorem selectWinner_cons (a : ChallengeMember) (l : List ChallengeMember) :
    selectWinner (a :: l) =
      match selectWinner l with
      | none => some a
      | some w => if w.points > a.points then some w else some a := rfl

/-- An empty winner selection means no members at all. -/
theorem selectWinner_none (l : List ChallengeMember) (h : selectWinner l = none) :
    l = [] := by
  cases l with
  | nil => rfl
  | cons a l =>
    exfalso
    rw [selectWinner_cons] at h
    cases hs : selectWinner l with
    | none =>
      rw [hs] at h
      have h2 : some a = none := h
      exact Option.noConfusion h2
    | some w =>
      rw [hs] at h
      have h2 : (if w.points > a.points then some w else some a) = none := h
      by_cases hgt : w.points > a.points
      · rw [if_pos hgt] at h2
        exact Option.noConfusion h2
      · rw [if_neg hgt] at h2
        exact Option.noConfusion h2

/-- The selected winner is a member with maximal points. -/
theorem selectWinner_spec (l : List ChallengeMember) (w : ChallengeMember)
    (h : selectWinner l = some w) :
    w ∈ l ∧ ∀ m ∈ l, m.points ≤ w.points := by
  induction l generalizing w with
  | nil => simp [selectWinner] at h
  | cons a l ih =>
    rw [selectWinner_cons] at h
    cases hs : selectWinner l with
    | none =>
      rw [hs] at h
      have h2 : some a = some w := h
      have haw : a = w := by simpa using h2
      have hl : l = [] := selectWinner_none l hs
      subst hl
      subst haw
      refine ⟨List.mem_cons_self a [], ?_⟩
      intro m hm
      have hma : m = a := by simpa using hm
      rw [hma]
    | some w2 =>
      rw [hs] at h
      have h2 : (if w2.points > a.points then some w2 else some a) = some w := h
      specialize ih w2 hs
      by_cases hgt : w2.points > a.points
      · rw [if_pos hgt] at h2
        have hw : w2 = w := by simpa using h2
        subst hw
        refine ⟨List.mem_cons_of_mem a ih.1, ?_⟩
        intro m hm
        rcases List.mem_cons.mp hm with rfl | hm2
        · exact le_of_lt hgt
        · exact ih.2 m hm2
      · rw [if_neg hgt] at h2
        have hw : a = w := by simpa using h2
        subst hw
        refine ⟨List.mem_cons_self a l, ?_⟩
        intro m hm
        rcases List.mem_cons.mp hm with rfl | hm2
        · exact le_refl _
        · exact le_trans (ih.2 m hm2) (le_of_not_lt hgt)

/-- The lifecycle check never touches the membership table. -/
theorem check_completed_members (db : DB) (uid : Nat) (t : Int) :
    (check_completed_challenges db uid t).members = db.members := by
  unfold check_completed_challenges
  exact foldl_lifecycle_members t _ db

/-- Running the lifecycle check twice is the same as running it once. -/
theorem check_completed_idem (db : DB) (uid : Nat) (t : Int)
    (hnd : ((db.members.filter (fun m => m.user_id == uid)).map
      (fun m => m.challenge_id)).Nodup) :
    check_completed_challenges (check_completed_challenges db uid t) uid t =
      check_completed_challenges db uid t := by
  unfold check_completed_challenges
  rw [foldl_lifecycle_members]
  apply foldl_lifecycle_id_of_quiet
  intro c hc
  apply lifecycleStep_eq_self
  intro ch2 hg2 e he2 hlt
  cases horig : getChallenge db c with
  | none =>
    rw [foldl_lifecycle_get_none t _ db c horig] at hg2
    exact absurd hg2 (by simp)
  | some ch0 =>
    rw [foldl_lifecycle_get_of_mem t _ db c ch0 hc hnd horig] at hg2
    have hch2 : ch2 = completeDue t db.members c ch0 := by
      have := hg2.symm
      simpa using this
    subst hch2
    rw [completeDue_end_date] at he2
    exact (completeDue_is_completed t db.members c ch0).mpr (Or.inr ⟨e, he2, hlt⟩)

/-- C7: for a challenge reached through one of a user's memberships, the
lifecycle check maps its row through `completeDue`: the completion flag
ends up set exactly when it was already set or the end date has passed; on
the false-to-true transition the winner is set to the points-maximal member
(ties by list order) and one notification per member is appended; an
already-completed challenge is left untouched; and the whole check is
idempotent. -/
theorem challenge_lifecycle (db : DB) (uid : Nat) (today : Int) (cid : Nat) (ch : Challenge)
    (hnd : ((db.members.filter (fun m => m.user_id == uid)).map
      (fun m => m.challenge_id)).Nodup)
    (hmem : cid ∈ (db.members.filter (fun m => m.user_id == uid)).map
      (fun m => m.challenge_id))
    (hg : getChallenge db cid = some ch) :
    getChallenge (check_completed_challenges db uid today) cid =
      some (completeDue today db.members cid ch)
  ∧ ((completeDue today db.members cid ch).is_completed = true ↔
      (ch.is_completed = true ∨ ∃ e, ch.end_date = some e ∧ e < today))
  ∧ (∀ e, ch.end_date = some e → e < today → ch.is_completed = false →
      (completeDue today db.members cid ch).winner_id =
        (selectWinner (db.members.filter (fun m => m.challenge_id == cid))).map
          (fun w => w.user_id))
  ∧ (∀ w, selectWinner (db.members.filter (fun m => m.challenge_id == cid)) = some w →
      w ∈ db.members.filter (fun m => m.challenge_id == cid) ∧
      ∀ m2 ∈ db.members.filter (fun m => m.challenge_id == cid), m2.points ≤ w.points)
  ∧ (∀ e, ch.end_date = some e → e < today → ch.is_completed = false →
      lifecycleStep today db cid =
        { db with
          challenges := db.challenges.map (fun x =>
            if x.id == cid then
              { ch with
                is_completed := true
                winner_id := (selectWinner (db.members.filter
                  (fun m => m.challenge_id == cid))).map (fun w => w.user_id) }
            else x)
          notifications := db.notifications ++
            (db.members.filter (fun m => m.challenge_id == cid)).map
              (fun m => completionNotification db m.user_id ch
                (selectWinner (db.members.filter (fun m => m.challenge_id == cid)))) })
  ∧ (ch.is_completed = true → lifecycleStep today db cid = db)
  ∧ check_completed_challenges (check_completed_challenges db uid today) uid today =
      check_completed_challenges db uid today := by
  refine ⟨?_, ?_, ?_, ?_, ?_, ?_, ?_⟩
  · unfold check_completed_challenges
    exact foldl_lifecycle_get_of_mem today _ db cid ch hmem hnd hg
  · exact completeDue_is_completed today db.members cid ch
  · intro e he hlt hcomp
    unfold completeDue
    simp only [he]
    rw [if_pos (And.intro hlt hcomp)]
  · intro w hw
    exact selectWinner_spec _ w hw
  · intro e he hlt hcomp
    simp only [lifecycleStep, hg, he]
    rw [if_pos (And.intro hlt hcomp)]
  · intro hcomp
    apply lifecycleStep_eq_self
    intro ch2 hg2 e he2 hlt
    rw [hg] at hg2
    have hch : ch = ch2 := by simpa using hg2
    rw [← hch]
    exact hcomp
  · exact check_completed_idem db uid today hnd

/-- Witness for C7 on the example ended challenge (end date 9, today 10):
the run completes it via `completeDue` and a second run changes nothing. -/
theorem challenge_lifecycle_witness :
    ((exampleEndedDB.members.filter (fun m => m.user_id == 1)).map
      (fun m => m.challenge_id)).Nodup ∧
    1 ∈ (exampleEndedDB.members.filter (fun m => m.user_id == 1)).map
      (fun m => m.challenge_id) ∧
    getChallenge exampleEndedDB 1 = some exampleEndedChallenge ∧
    getChallenge (check_completed_challenges exampleEndedDB 1 10) 1 =
      some (completeDue 10 exampleEndedDB.members 1 exampleEndedChallenge) ∧
    check_completed_challenges (check_completed_challenges exampleEndedDB 1 10) 1 10 =
      check_completed_challenges exampleEndedDB 1 10 :=
  ⟨by decide, by decide, rfl,
    (challenge_lifecycle exampleEndedDB 1 10 1 exampleEndedChallenge (by decide) (by decide)
      rfl).1,
    (challenge_lifecycle exampleEndedDB 1 10 1 exampleEndedChallenge (by decide) (by decide)
      rfl).2.2.2.2.2.2⟩

end SocialContract
